import Mathlib

/-!
Verification of the HBA room-booking hybrid recommendation engine.

The definitions below are a shallow embedding of the recommendation
subsystem, translated from the Python sources:
  services/recommendation/hybrid_engine.py      (HybridRecommendationEngine)
  services/recommendation/utils/base_engine.py  (BaseRecommendationEngine)
  services/recommendation/base_engine.py        (rule-based variant)
  services/recommendation/strategies/alternative_room.py

Timestamps are integer epoch seconds (Int), scores are exact rationals (ℚ).
Python dict-shaped candidate payloads are modelled by a structure whose
optional keys are Option fields; keys that no verified claim reads
(reason, confidence, data source tags) are omitted.  Exceptions do not
occur in the modelled fragment: the embedded datetime parser is total and
the scoring oracles return Option, with none standing for a raised
exception that the source catches and replaces by a neutral constant.
-/

namespace HBA

/-- Booking row (models/booking.py MRBSEntry): room, half-open interval
in epoch seconds, status (0 = confirmed, non-zero = cancelled/other). -/
structure MRBSEntry where
  roomId : Nat
  startTime : Int
  endTime : Int
  status : Nat
deriving DecidableEq

/-- Room row (models/room.py MRBSRoom). -/
structure MRBSRoom where
  id : Nat
  roomName : String
  capacity : Int
  disabled : Bool
deriving DecidableEq

/-- Candidate recommendation: the dict payload produced by the strategies
and enriched by the fusion engine.  roomName is the top-level room_name
key (set by hybrid _get_base_recommendations); the s-prefixed fields are
the keys of the nested suggestion dict.  Keys absent until a later pass
writes them are modelled by defaulted fields. -/
structure Candidate where
  type : String
  score : ℚ
  roomName : String := ""
  sRoomId : String := ""
  sRoomName : Option String := none
  sStartTime : Option Int := none
  sEndTime : Int := 0
  sDurationMinutes : Int := 0
  finalScore : ℚ := 0
  mlScore : ℚ := 0
  llmScore : ℚ := 0
deriving DecidableEq

/-- utils/base_engine.py _is_time_slot_available, the conflict count of
its query: entries of the room with status 0 overlapping the half-open
interval [startTs, endTs) under start < endTs AND end > startTs. -/
def conflictCount (entries : List MRBSEntry) (roomId : Nat)
    (startTs endTs : Int) : Nat :=
  (entries.filter fun b => decide (b.roomId = roomId ∧ b.startTime < endTs ∧
    b.endTime > startTs ∧ b.status = 0)).length

/-- utils/base_engine.py _is_time_slot_available: available iff the
conflict count is zero. -/
def isTimeSlotAvailable (entries : List MRBSEntry) (roomId : Nat)
    (startTs endTs : Int) : Bool :=
  conflictCount entries roomId startTs endTs = 0

/-- base_engine.py _is_time_available (rule-based variant): scans a
prefetched booking list and reports unavailable on the first entry with
start < end_ts and end > start_ts; no status filter. -/
def isTimeAvailable (existingBookings : List MRBSEntry)
    (startTs endTs : Int) : Bool :=
  existingBookings.all fun b =>
    !(decide (b.startTime < endTs) && decide (b.endTime > startTs))

/-- utils/base_engine.py _parse_datetime.  datetime.fromisoformat and
datetime.strptime live outside the repo and are abstracted as oracles
returning none on parse failure; datetime.now() is the parameter now.
A none input models Python None (the TypeError is caught). -/
def parseDatetime (fromisoformat strptime : String → Option Int)
    (now : Int) (timeStr : Option String) : Int :=
  match timeStr with
  | none => now
  | some s =>
    if s.contains 'T' then (fromisoformat (s.replace "Z" "+00:00")).getD now
    else (strptime s).getD now

/-- Weight triple of hybrid_engine.py _configure_scoring (the base_weights
dict): existing_system, ml_similarity, llm_context. -/
structure ScoringWeights where
  existingSystem : ℚ
  mlSimilarity : ℚ
  llmContext : ℚ
deriving DecidableEq

/-- hybrid_engine.py _configure_scoring: mode name and weights chosen from
the availability of the ML and LLM components.  The decimal literals of
the source are carried as exact rationals. -/
def configureScoring (mlAvailable llmAvailable : Bool) :
    String × ScoringWeights :=
  if mlAvailable && llmAvailable then
    ("full_hybrid", ⟨85/100, 75/1000, 75/1000⟩)
  else if mlAvailable then ("ml_enhanced", ⟨9/10, 1/10, 0⟩)
  else if llmAvailable then ("llm_enhanced", ⟨9/10, 0, 1/10⟩)
  else ("standard", ⟨1, 0, 0⟩)

/-- Round a rational to the nearest integer, halves to even (the IEEE 754
tie rule). -/
def roundHalfEven (x : ℚ) : ℤ :=
  if x - ⌊x⌋ < 1/2 then ⌊x⌋
  else if 1/2 < x - ⌊x⌋ then ⌊x⌋ + 1
  else if 2 ∣ ⌊x⌋ then ⌊x⌋ else ⌊x⌋ + 1

/-- Round a positive rational to the nearest IEEE binary64 value (53-bit
significand, round to nearest, ties to even).  The binade is selected by
explicit range tests; the covered range [2^(-4), 2) contains every value
arising in the weight arithmetic below, and values outside the listed
binades (only 0 here) are already exact. -/
def roundBinary64 (q : ℚ) : ℚ :=
  if 1 ≤ q then (roundHalfEven (q * 2^52) : ℚ) / 2^52
  else if 1/2 ≤ q then (roundHalfEven (q * 2^53) : ℚ) / 2^53
  else if 1/4 ≤ q then (roundHalfEven (q * 2^54) : ℚ) / 2^54
  else if 1/8 ≤ q then (roundHalfEven (q * 2^55) : ℚ) / 2^55
  else (roundHalfEven (q * 2^56) : ℚ) / 2^56

/-- IEEE binary64 addition of two representable values: exact sum, then
rounding. -/
def fladd (a b : ℚ) : ℚ := roundBinary64 (a + b)

/-- The Python evaluation of base + ml + llm for a stored weight dict:
each decimal literal is stored as its nearest binary64 value and the sum
is computed left to right in binary64 arithmetic. -/
def floatWeightSum (w : ScoringWeights) : ℚ :=
  fladd (fladd (roundBinary64 w.existingSystem) (roundBinary64 w.mlSimilarity))
    (roundBinary64 w.llmContext)

/-- hybrid_engine.py _sort_by_priority priority_map, with default 5 for
unknown types. -/
def priorityMap (recType : String) : Nat :=
  if recType = "alternative_room" then 1
  else if recType = "alternative_time" then 2
  else if recType = "smart_scheduling" then 3
  else if recType = "proactive" then 4
  else 5

/-- Order of the sort key of hybrid_engine.py _sort_by_priority: priority
ascending, final_score descending on ties. -/
def priorityLE (a b : Candidate) : Prop :=
  priorityMap a.type < priorityMap b.type ∨
    (priorityMap a.type = priorityMap b.type ∧ b.finalScore ≤ a.finalScore)

instance : DecidableRel priorityLE := fun a b => by
  unfold priorityLE
  infer_instance

instance : IsTotal Candidate priorityLE where
  total a b := by
    unfold priorityLE
    rcases Nat.lt_trichotomy (priorityMap a.type) (priorityMap b.type) with
      h | h | h
    · exact Or.inl (Or.inl h)
    · rcases le_total b.finalScore a.finalScore with hf | hf
      · exact Or.inl (Or.inr ⟨h, hf⟩)
      · exact Or.inr (Or.inr ⟨h.symm, hf⟩)
    · exact Or.inr (Or.inl h)

instance : IsTrans Candidate priorityLE where
  trans a b c hab hbc := by
    unfold priorityLE at hab hbc ⊢
    rcases hab with h1 | ⟨h1, f1⟩ <;> rcases hbc with h2 | ⟨h2, f2⟩
    · exact Or.inl (h1.trans h2)
    · exact Or.inl (h2 ▸ h1)
    · exact Or.inl (h1 ▸ h2)
    · exact Or.inr ⟨h1.trans h2, f2.trans f1⟩

/-- hybrid_engine.py _sort_by_priority.  CPython sorted is the stable
sort by the key (priority, -final_score); the stable insertion sort
computes the same list. -/
def sortByPriority (recs : List Candidate) : List Candidate :=
  List.insertionSort priorityLE recs

/-- Per-candidate body of hybrid_engine.py _calculate_final_scores: read
the base score, look up the ml and llm scores by room name (dict get with
default 0.5 for both), attach them and the weighted final score. -/
def enrichCandidate (w : ScoringWeights)
    (mlScores llmScores : List (String × ℚ)) (rec : Candidate) : Candidate :=
  { rec with
    finalScore := w.existingSystem * rec.score +
      w.mlSimilarity * ((mlScores.lookup rec.roomName).getD (1/2)) +
      w.llmContext * ((llmScores.lookup rec.roomName).getD (1/2)),
    mlScore := (mlScores.lookup rec.roomName).getD (1/2),
    llmScore := (llmScores.lookup rec.roomName).getD (1/2) }

/-- hybrid_engine.py _calculate_final_scores over the candidate list. -/
def calculateFinalScores (w : ScoringWeights) (recs : List Candidate)
    (mlScores llmScores : List (String × ℚ)) : List Candidate :=
  recs.map (enrichCandidate w mlScores llmScores)

/-- Python dict assignment d[k] = v on a dict modelled as an association
list without duplicate keys: overwrite in place, or append a new key. -/
def dictInsert (m : List (String × ℚ)) (k : String) (v : ℚ) :
    List (String × ℚ) :=
  if m.any fun p => p.1 == k then
    m.map fun p => if p.1 == k then (k, v) else p
  else m ++ [(k, v)]

/-- hybrid_engine.py _run_ml_analysis_sync.  calcMlScore abstracts
_calculate_ml_score_sync; none models a raised exception, replaced by the
neutral 0.5.  With the embeddings object missing or the component flagged
unavailable, every named room gets the neutral 0.5. -/
def runMlAnalysisSync (embeddingsPresent mlAvailable : Bool)
    (calcMlScore : Candidate → Option ℚ) (recs : List Candidate) :
    List (String × ℚ) :=
  if !embeddingsPresent || !mlAvailable then
    recs.foldl (fun m rec =>
      if rec.roomName ≠ "" then dictInsert m rec.roomName (1/2) else m) []
  else
    recs.foldl (fun m rec =>
      if rec.roomName ≠ "" then
        dictInsert m rec.roomName ((calcMlScore rec).getD (1/2))
      else m) []

/-- hybrid_engine.py _run_llm_analysis_sync, same shape as the ML pass
with the neutral 0.6. -/
def runLlmAnalysisSync (processorPresent llmAvailable : Bool)
    (calcLlmScore : Candidate → Option ℚ) (recs : List Candidate) :
    List (String × ℚ) :=
  if !processorPresent || !llmAvailable then
    recs.foldl (fun m rec =>
      if rec.roomName ≠ "" then dictInsert m rec.roomName (6/10) else m) []
  else
    recs.foldl (fun m rec =>
      if rec.roomName ≠ "" then
        dictInsert m rec.roomName ((calcLlmScore rec).getD (6/10))
      else m) []

/-- utils/base_engine.py _create_fallback_recommendations: one synthetic
alternative_time candidate with score 0.75 reusing the requested room id
and the raw request times (carried here as the parsed epoch values of a
valid request). -/
def createFallbackRecommendations (reqRoomId : String)
    (reqStart : Option Int) (reqEnd : Int) : List Candidate :=
  [{ type := "alternative_time", score := 3/4, sRoomId := reqRoomId,
     sStartTime := reqStart, sEndTime := reqEnd }]

/-- utils/base_engine.py get_recommendations: concatenate the outputs of
the four strategies (a strategy that raises is caught and contributes the
empty list) and fall back to the synthetic candidate when all are empty. -/
def baseGetRecommendations (altTime altRoom proactive smart : List Candidate)
    (reqRoomId : String) (reqStart : Option Int) (reqEnd : Int) :
    List Candidate :=
  let recommendations := altTime ++ altRoom ++ proactive ++ smart
  if recommendations.isEmpty then
    createFallbackRecommendations reqRoomId reqStart reqEnd
  else recommendations

/-- hybrid_engine.py _get_base_recommendations: set the top-level
room_name key from suggestion.room_name with default Room_{i+1}. -/
def getBaseRecommendations (recs : List Candidate) : List Candidate :=
  recs.enum.map fun p =>
    { p.2 with roomName := p.2.sRoomName.getD ("Room_" ++ toString (p.1 + 1)) }

/-- hybrid_engine.py _get_enhanced_recommendations_sync: base candidates,
ML and LLM score maps when the components are available, fusion by
_calculate_final_scores, priority sort, top 8. -/
def getEnhancedRecommendationsSync
    (mlAvailable llmAvailable embeddingsPresent processorPresent : Bool)
    (calcMlScore calcLlmScore : Candidate → Option ℚ)
    (altTime altRoom proactive smart : List Candidate)
    (reqRoomId : String) (reqStart : Option Int) (reqEnd : Int) :
    List Candidate :=
  let baseRecs := getBaseRecommendations
    (baseGetRecommendations altTime altRoom proactive smart reqRoomId reqStart
      reqEnd)
  let mlScores := if mlAvailable then
    runMlAnalysisSync embeddingsPresent mlAvailable calcMlScore baseRecs
  else []
  let llmScores := if llmAvailable then
    runLlmAnalysisSync processorPresent llmAvailable calcLlmScore baseRecs
  else []
  (sortByPriority (calculateFinalScores
    (configureScoring mlAvailable llmAvailable).2 baseRecs mlScores
    llmScores)).take 8

/-- hybrid_engine.py _validate_and_fix_durations: recompute
suggestion.end_time as start_time plus the expected duration, and rewrite
duration_minutes, for every candidate whose suggestion carries a
start_time; other candidates pass through unchanged.  The embedded parser
is total, so the per-candidate exception branch is unreachable. -/
def fixDuration (expectedDurationMinutes : Int) (rec : Candidate) : Candidate :=
  match rec.sStartTime with
  | some startTime =>
    { rec with sEndTime := startTime + expectedDurationMinutes * 60,
               sDurationMinutes := expectedDurationMinutes }
  | none => rec

/-- hybrid_engine.py _validate_and_fix_durations over the list. -/
def validateAndFixDurations (recs : List Candidate)
    (expectedDurationMinutes : Int) : List Candidate :=
  recs.map (fixDuration expectedDurationMinutes)

/-- hybrid_engine.py get_recommendations, synchronous enhanced path for a
request whose times parse to the epoch values reqStart and reqEnd:
user_duration_minutes is int((end - start)/60), a truncating division,
and the enhanced list goes through the duration fix-up. -/
def getRecommendations
    (mlAvailable llmAvailable embeddingsPresent processorPresent : Bool)
    (calcMlScore calcLlmScore : Candidate → Option ℚ)
    (altTime altRoom proactive smart : List Candidate)
    (reqRoomId : String) (reqStart reqEnd : Int) : List Candidate :=
  validateAndFixDurations
    (getEnhancedRecommendationsSync mlAvailable llmAvailable embeddingsPresent
      processorPresent calcMlScore calcLlmScore altTime altRoom proactive smart
      reqRoomId (some reqStart) reqEnd)
    ((reqEnd - reqStart).tdiv 60)

/-- HOUR(FROM_UNIXTIME(ts)) for a database server on UTC. -/
def hourOf (ts : Int) : Int := ts / 3600 % 24

/-- Python datetime.weekday() of an epoch timestamp: 0 = Monday.  Epoch
day zero (1970-01-01) was a Thursday. -/
def pyWeekday (ts : Int) : Int := (ts / 86400 + 3) % 7

/-- MySQL DAYOFWEEK(FROM_UNIXTIME(ts)): 1 = Sunday .. 7 = Saturday. -/
def mysqlDayOfWeek (ts : Int) : Int := (ts / 86400 + 4) % 7 + 1

/-- utils/base_engine.py _get_smart_scheduling_recommendations, per-room
count of the outer join: entries of the room at or after the 30-day
history start whose start has the requested HOUR and whose DAYOFWEEK
equals the Python weekday of the request plus one. -/
def smartBookingCount (entries : List MRBSEntry) (roomId : Nat)
    (historyStartTs : Int) (requestedHour requestedDayOfWeek : Int) : Nat :=
  (entries.filter fun b => decide (b.roomId = roomId ∧
    historyStartTs ≤ b.startTime ∧ hourOf b.startTime = requestedHour ∧
    mysqlDayOfWeek b.startTime = requestedDayOfWeek + 1)).length

/-- The count described by claim C9: bookings in the window on the same
hour of day and the same weekday as the request.  Stated from the claim
wording, for comparison with smartBookingCount. -/
def claimedSameSlotCount (entries : List MRBSEntry) (roomId : Nat)
    (historyStartTs : Int) (requestedHour requestedDayOfWeek : Int) : Nat :=
  (entries.filter fun b => decide (b.roomId = roomId ∧
    historyStartTs ≤ b.startTime ∧ hourOf b.startTime = requestedHour ∧
    pyWeekday b.startTime = requestedDayOfWeek)).length

/-- Ascending order on the per-room booking counts (ORDER BY count ASC). -/
def countLE (a b : MRBSRoom × Nat) : Prop := a.2 ≤ b.2

instance : DecidableRel countLE := fun a b =>
  inferInstanceAs (Decidable (a.2 ≤ b.2))

/-- utils/base_engine.py _get_smart_scheduling_recommendations: rank the
non-disabled rooms by the count above ascending (stable on ties, an
embedding of the unspecified SQL tie order), take 10, keep conflict-free
rooms, score max(0.5, 1 - (count/30)*0.1), stop after 3 candidates. -/
def smartSchedulingRecommendations (rooms : List MRBSRoom)
    (entries : List MRBSEntry) (reqStart reqEnd : Int) : List Candidate :=
  let requestedHour := hourOf reqStart
  let requestedDayOfWeek := pyWeekday reqStart
  let historyStartTs := reqStart - 30 * 86400
  let utilization := (rooms.filter fun r => !r.disabled).map fun r =>
    (r, smartBookingCount entries r.id historyStartTs requestedHour
      requestedDayOfWeek)
  let ordered := (List.insertionSort countLE utilization).take 10
  let availableRooms := ordered.filter fun p =>
    isTimeSlotAvailable entries p.1.id reqStart reqEnd
  (availableRooms.take 3).map fun p =>
    { type := "smart_scheduling",
      score := max (1/2) (1 - ((p.2 : ℚ) / 30) * (1/10)),
      sRoomId := p.1.roomName, sRoomName := some p.1.roomName,
      sStartTime := some reqStart, sEndTime := reqEnd }

/-- Candidate dict of strategies/alternative_room.py find_similar_rooms
(room_name and confidence_score are the fields its dedup and sort read). -/
structure AltCandidate where
  roomName : String
  confidenceScore : ℚ
deriving DecidableEq

/-- strategies/alternative_room.py find_similar_rooms lines 64-69: the
seen-set comprehension keeping only the first occurrence of each room
name; seen holds the names already kept. -/
def removeDuplicateRooms : List AltCandidate → List String → List AltCandidate
  | [], _ => []
  | alt :: rest, seen =>
    if alt.roomName ∈ seen then removeDuplicateRooms rest seen
    else alt :: removeDuplicateRooms rest (alt.roomName :: seen)

end HBA

namespace HBA

lemma roundHalfEven_eq_of_lt (x : ℚ) (n : ℤ) (h1 : (n : ℚ) ≤ x)
    (h2 : x < n + 1/2) : roundHalfEven x = n := by
  have hf : ⌊x⌋ = n := Int.floor_eq_iff.mpr ⟨h1, by linarith⟩
  simp only [roundHalfEven, hf]
  rw [if_pos (by linarith)]

lemma roundHalfEven_eq_of_gt (x : ℚ) (n : ℤ) (h1 : (n : ℚ) + 1/2 < x)
    (h2 : x < n + 1) : roundHalfEven x = n + 1 := by
  have hf : ⌊x⌋ = n := Int.floor_eq_iff.mpr ⟨by linarith, by linarith⟩
  simp only [roundHalfEven, hf]
  rw [if_neg (by linarith), if_pos (by linarith)]

lemma rb64_085 : roundBinary64 (85/100) =
    7656119366529843 / 9007199254740992 := by
  simp only [roundBinary64]
  rw [if_neg (by norm_num), if_pos (by norm_num),
    roundHalfEven_eq_of_lt _ 7656119366529843 (by norm_num) (by norm_num)]
  norm_num

lemma rb64_0075 : roundBinary64 (75/1000) =
    5404319552844595 / 72057594037927936 := by
  simp only [roundBinary64]
  rw [if_neg (by norm_num), if_neg (by norm_num), if_neg (by norm_num),
    if_neg (by norm_num),
    roundHalfEven_eq_of_lt _ 5404319552844595 (by norm_num) (by norm_num)]
  norm_num

lemma rb64_09 : roundBinary64 (9/10) =
    8106479329266893 / 9007199254740992 := by
  simp only [roundBinary64]
  rw [if_neg (by norm_num), if_pos (by norm_num),
    roundHalfEven_eq_of_gt _ 8106479329266892 (by norm_num) (by norm_num)]
  norm_num

lemma rb64_01 : roundBinary64 (1/10) =
    3602879701896397 / 36028797018963968 := by
  simp only [roundBinary64]
  rw [if_neg (by norm_num), if_neg (by norm_num), if_neg (by norm_num),
    if_neg (by norm_num),
    roundHalfEven_eq_of_gt _ 7205759403792793 (by norm_num) (by norm_num)]
  norm_num

lemma rb64_one : roundBinary64 1 = 1 := by
  simp only [roundBinary64]
  rw [if_pos (by norm_num),
    roundHalfEven_eq_of_lt _ 4503599627370496 (by norm_num) (by norm_num)]
  norm_num

lemma rb64_zero : roundBinary64 0 = 0 := by
  simp only [roundBinary64]
  rw [if_neg (by norm_num), if_neg (by norm_num), if_neg (by norm_num),
    if_neg (by norm_num), roundHalfEven_eq_of_lt _ 0 (by norm_num) (by norm_num)]
  norm_num

lemma fladd_085_0075 :
    fladd (7656119366529843 / 9007199254740992)
      (5404319552844595 / 72057594037927936) =
    8331659310635417 / 9007199254740992 := by
  rw [fladd]
  simp only [roundBinary64]
  rw [if_neg (by norm_num), if_pos (by norm_num),
    roundHalfEven_eq_of_lt _ 8331659310635417 (by norm_num) (by norm_num)]
  norm_num

lemma fladd_full_hybrid :
    fladd (8331659310635417 / 9007199254740992)
      (5404319552844595 / 72057594037927936) =
    9007199254740991 / 9007199254740992 := by
  rw [fladd]
  simp only [roundBinary64]
  rw [if_neg (by norm_num), if_pos (by norm_num),
    roundHalfEven_eq_of_lt _ 9007199254740991 (by norm_num) (by norm_num)]
  norm_num

lemma fladd_09_01 :
    fladd (8106479329266893 / 9007199254740992)
      (3602879701896397 / 36028797018963968) = 1 := by
  rw [fladd]
  simp only [roundBinary64]
  rw [if_pos (by norm_num),
    roundHalfEven_eq_of_lt _ 4503599627370496 (by norm_num) (by norm_num)]
  norm_num

lemma fladd_09_zero :
    fladd (8106479329266893 / 9007199254740992) 0 =
      8106479329266893 / 9007199254740992 := by
  rw [fladd]
  simp only [roundBinary64]
  rw [if_neg (by norm_num), if_pos (by norm_num),
    roundHalfEven_eq_of_lt _ 8106479329266893 (by norm_num) (by norm_num)]
  norm_num

lemma fladd_one_zero : fladd 1 0 = 1 := by
  rw [fladd]
  simp only [roundBinary64]
  rw [if_pos (by norm_num),
    roundHalfEven_eq_of_lt _ 4503599627370496 (by norm_num) (by norm_num)]
  norm_num

end HBA

namespace HBA

/-- C2: the Oracle reports a conflict iff the intervals strictly overlap;
touching intervals never conflict; the rule-based variant agrees; and over
a whole booking table a conflict is exactly an overlapping status-0 entry
of the room. -/
theorem claim_C2 (roomId : Nat) (a0 a1 b0 b1 : Int) :
    (isTimeSlotAvailable [⟨roomId, b0, b1, 0⟩] roomId a0 a1 = false ↔
      (a0 < b1 ∧ b0 < a1)) ∧
    (a1 = b0 → isTimeSlotAvailable [⟨roomId, b0, b1, 0⟩] roomId a0 a1 = true) ∧
    (isTimeAvailable [⟨roomId, b0, b1, 0⟩] a0 a1 = false ↔ (a0 < b1 ∧ b0 < a1)) ∧
    (∀ entries : List MRBSEntry,
      isTimeSlotAvailable entries roomId a0 a1 = false ↔
        ∃ b ∈ entries, b.roomId = roomId ∧ b.status = 0 ∧
          b.startTime < a1 ∧ a0 < b.endTime) := by
  have key : ∀ entries : List MRBSEntry,
      isTimeSlotAvailable entries roomId a0 a1 = false ↔
        ∃ b ∈ entries, b.roomId = roomId ∧ b.status = 0 ∧
          b.startTime < a1 ∧ a0 < b.endTime := by
    intro entries
    simp only [isTimeSlotAvailable, conflictCount, decide_eq_false_iff_not,
      decide_eq_true_eq, List.length_eq_zero, List.filter_eq_nil_iff, not_forall,
      not_not, exists_prop]
    exact exists_congr fun b => by tauto
  have single : isTimeSlotAvailable [⟨roomId, b0, b1, 0⟩] roomId a0 a1 = false ↔
      (a0 < b1 ∧ b0 < a1) := by
    rw [key]
    constructor
    · rintro ⟨b, hb, _h1, _h2, h3, h4⟩
      rw [List.mem_singleton] at hb
      subst hb
      exact ⟨h4, h3⟩
    · rintro ⟨h1, h2⟩
      exact ⟨⟨roomId, b0, b1, 0⟩, List.mem_singleton_self _, rfl, rfl, h2, h1⟩
  refine ⟨single, ?_, ?_, key⟩
  · intro htouch
    cases hval : isTimeSlotAvailable [⟨roomId, b0, b1, 0⟩] roomId a0 a1 with
    | false =>
      rcases single.mp hval with ⟨_hx, hlt⟩
      omega
    | true => rfl
  · constructor
    · intro h
      simp [isTimeAvailable] at h
      tauto
    · intro h
      simp [isTimeAvailable]
      tauto

/-- C2 witness: a booking [10, 20) and a request [0, 10) touch and do not
conflict. -/
theorem claim_C2_witness :
    (10 : Int) = 10 ∧ isTimeSlotAvailable [⟨1, 10, 20, 0⟩] 1 0 10 = true :=
  ⟨rfl, (claim_C2 1 0 10 10 20).2.1 rfl⟩

/-- C10: on any input that is None or fails both the fromisoformat branch
(after the Z replacement) and the strptime branch, _parse_datetime returns
the current wall-clock time instead of raising. -/
theorem claim_C10 (fromisoformat strptime : String → Option Int) (now : Int)
    (timeStr : Option String)
    (h : ∀ s, timeStr = some s →
      fromisoformat (s.replace "Z" "+00:00") = none ∧ strptime s = none) :
    parseDatetime fromisoformat strptime now timeStr = now := by
  cases timeStr with
  | none => rfl
  | some s =>
    rcases h s rfl with ⟨h1, h2⟩
    simp only [parseDatetime]
    by_cases hT : s.contains 'T'
    · simp [hT, h1]
    · simp [hT, h2]

/-- C10 witness: with parse oracles that reject every string, a garbage
input yields the clock value 12345. -/
theorem claim_C10_witness :
    parseDatetime (fun _ => none) (fun _ => none) 12345 (some "not-a-date") =
      12345 :=
  claim_C10 (fun _ => none) (fun _ => none) 12345 (some "not-a-date")
    (fun _ _ => ⟨rfl, rfl⟩)

/-- C5 counterexample: in full_hybrid mode the binary64 evaluation of
0.85 + 0.075 + 0.075 lands one ulp below 1, so the claimed exact float
equality with 1.0 fails for that weight configuration. -/
theorem claim_C5_counterexample :
    floatWeightSum (configureScoring true true).2 =
      9007199254740991 / 9007199254740992 ∧
    floatWeightSum (configureScoring true true).2 ≠ 1 := by
  have hw : (configureScoring true true).2 =
      ⟨85/100, 75/1000, 75/1000⟩ := rfl
  have h : floatWeightSum (configureScoring true true).2 =
      9007199254740991 / 9007199254740992 := by
    rw [hw]
    show fladd (fladd (roundBinary64 (85/100)) (roundBinary64 (75/1000)))
      (roundBinary64 (75/1000)) = _
    rw [rb64_085, rb64_0075, fladd_085_0075, fladd_full_hybrid]
  refine ⟨h, ?_⟩
  rw [h]
  norm_num

/-- C5 amended: in every mode the configured weights sum to exactly 1 as
exact decimal values, and the left-to-right binary64 sum equals 1.0
exactly in the ml_enhanced, llm_enhanced and standard modes (full_hybrid
is the exception recorded separately). -/
theorem claim_C5 :
    (∀ mlAvailable llmAvailable : Bool,
      (configureScoring mlAvailable llmAvailable).2.existingSystem +
        (configureScoring mlAvailable llmAvailable).2.mlSimilarity +
        (configureScoring mlAvailable llmAvailable).2.llmContext = 1) ∧
    floatWeightSum (configureScoring true false).2 = 1 ∧
    floatWeightSum (configureScoring false true).2 = 1 ∧
    floatWeightSum (configureScoring false false).2 = 1 := by
  refine ⟨?_, ?_, ?_, ?_⟩
  · intro mlA llmA
    cases mlA <;> cases llmA <;> norm_num [configureScoring]
  · show fladd (fladd (roundBinary64 (9/10)) (roundBinary64 (1/10)))
      (roundBinary64 0) = 1
    rw [rb64_09, rb64_01, rb64_zero, fladd_09_01, fladd_one_zero]
  · show fladd (fladd (roundBinary64 (9/10)) (roundBinary64 0))
      (roundBinary64 (1/10)) = 1
    rw [rb64_09, rb64_zero, rb64_01, fladd_09_zero, fladd_09_01]
  · show fladd (fladd (roundBinary64 1) (roundBinary64 0))
      (roundBinary64 0) = 1
    rw [rb64_one, rb64_zero, fladd_one_zero, fladd_one_zero]

/-- C9: the smart-scheduling count misses same-weekday bookings.  For a
Monday 10:00 request (epoch 3405600), a Monday 10:00 booking inside the
trailing 30-day window (history start 813600) is not counted, because the
DAYOFWEEK comparison is off by one (MySQL DAYOFWEEK has 1 = Sunday while
Python weekday has 0 = Monday); a Sunday 10:00 booking is counted
instead.  The claimed same-weekday count disagrees on the same inputs. -/
theorem claim_C9 :
    pyWeekday 3405600 = 0 ∧ pyWeekday 2800800 = 0 ∧ hourOf 2800800 = 10 ∧
    (813600 : Int) ≤ 2800800 ∧
    smartBookingCount [⟨1, 2800800, 2804400, 0⟩] 1 813600 10 0 = 0 ∧
    claimedSameSlotCount [⟨1, 2800800, 2804400, 0⟩] 1 813600 10 0 = 1 ∧
    pyWeekday 3319200 = 6 ∧
    smartBookingCount [⟨1, 3319200, 3322800, 0⟩] 1 813600 10 0 = 1 := by
  decide

lemma removeDuplicateRooms_spec (l : List AltCandidate) :
    ∀ seen : List String,
      (∀ x : String, x ∉ seen →
        (removeDuplicateRooms l seen).find? (fun a => a.roomName == x) =
          l.find? (fun a => a.roomName == x)) ∧
      (∀ a ∈ removeDuplicateRooms l seen, a.roomName ∉ seen) ∧
      ((removeDuplicateRooms l seen).map (fun a => a.roomName)).Nodup := by
  induction l with
  | nil =>
    intro seen
    exact ⟨fun _ _ => rfl, by simp [removeDuplicateRooms],
      by simp [removeDuplicateRooms]⟩
  | cons alt rest ih =>
    intro seen
    by_cases hmem : alt.roomName ∈ seen
    · rw [show removeDuplicateRooms (alt :: rest) seen =
        removeDuplicateRooms rest seen from by
          simp [removeDuplicateRooms, hmem]]
      refine ⟨?_, (ih seen).2.1, (ih seen).2.2⟩
      intro x hx
      have hne : (alt.roomName == x) = false := by
        simp only [beq_eq_false_iff_ne, ne_eq]
        intro heq
        exact hx (heq ▸ hmem)
      rw [List.find?_cons, hne]
      exact (ih seen).1 x hx
    · rw [show removeDuplicateRooms (alt :: rest) seen =
        alt :: removeDuplicateRooms rest (alt.roomName :: seen) from by
          simp [removeDuplicateRooms, hmem]]
      refine ⟨?_, ?_, ?_⟩
      · intro x hx
        rw [List.find?_cons, List.find?_cons]
        cases hbeq : alt.roomName == x with
        | true => rfl
        | false =>
          have hx2 : x ∉ alt.roomName :: seen := by
            simp only [List.mem_cons, not_or]
            exact ⟨fun heq => by simp [heq] at hbeq, hx⟩
          exact (ih (alt.roomName :: seen)).1 x hx2
      · intro a ha
        rcases List.mem_cons.mp ha with rfl | ha
        · exact hmem
        · have := (ih (alt.roomName :: seen)).2.1 a ha
          simp only [List.mem_cons, not_or] at this
          exact this.2
      · rw [List.map_cons, List.nodup_cons]
        refine ⟨?_, (ih (alt.roomName :: seen)).2.2⟩
        intro hcontra
        rcases List.mem_map.mp hcontra with ⟨a, ha, haeq⟩
        have := (ih (alt.roomName :: seen)).2.1 a ha
        simp only [List.mem_cons, not_or] at this
        exact this.1 haeq

/-- C8 amended: the first-occurrence-wins deduplication by room name
lives in find_similar_rooms of the AlternativeRoomStrategy, over its own
alternatives: the deduped list has pairwise distinct room names and
agrees with its input on the first entry bearing any given name.  The
fusion engine itself does not deduplicate (see the counterexample). -/
theorem claim_C8 (l : List AltCandidate) :
    ((removeDuplicateRooms l []).map (fun a => a.roomName)).Nodup ∧
    ∀ x : String,
      (removeDuplicateRooms l []).find? (fun a => a.roomName == x) =
        l.find? (fun a => a.roomName == x) :=
  ⟨(removeDuplicateRooms_spec l []).2.2,
    fun x => (removeDuplicateRooms_spec l []).1 x (by simp)⟩

/-- C8 counterexample: when the alternative-room strategy and the
smart-scheduling strategy both propose room A, the list returned by the
entry point contains the room name A twice: the fusion engine performs no
deduplication. -/
theorem claim_C8_counterexample :
    ((getRecommendations false false false false (fun _ => none)
      (fun _ => none) []
      [{ type := "alternative_room", score := 3/4, sRoomName := some "A",
         sRoomId := "A", sStartTime := some 0, sEndTime := 3600 }] []
      [{ type := "smart_scheduling", score := 1/2, sRoomName := some "A",
         sRoomId := "A", sStartTime := some 0, sEndTime := 3600 }]
      "LT1" 0 3600).map fun r => r.roomName) = ["A", "A"] ∧
    ¬ (["A", "A"] : List String).Nodup := by
  constructor
  · norm_num [getRecommendations, getEnhancedRecommendationsSync,
      baseGetRecommendations, createFallbackRecommendations,
      getBaseRecommendations, calculateFinalScores, enrichCandidate,
      sortByPriority, priorityLE, priorityMap, configureScoring,
      validateAndFixDurations, fixDuration, List.insertionSort,
      List.orderedInsert, List.enum, List.enumFrom, List.lookup]
    decide
  · decide

lemma fixDuration_proj (d : Int) (rec : Candidate) :
    (fixDuration d rec).type = rec.type ∧
    (fixDuration d rec).score = rec.score ∧
    (fixDuration d rec).sRoomId = rec.sRoomId ∧
    (fixDuration d rec).sStartTime = rec.sStartTime ∧
    (fixDuration d rec).finalScore = rec.finalScore ∧
    (fixDuration d rec).mlScore = rec.mlScore ∧
    (fixDuration d rec).llmScore = rec.llmScore := by
  cases h : rec.sStartTime <;> simp [fixDuration, h]

lemma fixDuration_eq (d : Int) (rec : Candidate) (s : Int)
    (hs : (fixDuration d rec).sStartTime = some s) :
    (fixDuration d rec).sEndTime = s + d * 60 ∧
    (fixDuration d rec).sDurationMinutes = d := by
  cases h : rec.sStartTime with
  | none => simp [fixDuration, h] at hs
  | some s0 =>
    simp only [fixDuration, h] at hs ⊢
    simp only [Option.some.injEq] at hs
    subst hs
    refine ⟨?_, ?_⟩ <;> trivial

/-- C1 amended: every candidate returned by the entry point whose
suggestion carries a start_time has its end_time recomputed as start_time
plus the requested duration truncated to whole minutes
(int((end-start)/60) minutes), and its duration_minutes set to that
value; this covers fallback candidates.  The exact second-level equality
with the requested duration fails when that duration is not a whole
number of minutes (see the counterexample). -/
theorem claim_C1
    (mlAvailable llmAvailable embeddingsPresent processorPresent : Bool)
    (calcMlScore calcLlmScore : Candidate → Option ℚ)
    (altTime altRoom proactive smart : List Candidate)
    (reqRoomId : String) (reqStart reqEnd : Int) (r : Candidate)
    (hr : r ∈ getRecommendations mlAvailable llmAvailable embeddingsPresent
      processorPresent calcMlScore calcLlmScore altTime altRoom proactive
      smart reqRoomId reqStart reqEnd)
    (s : Int) (hs : r.sStartTime = some s) :
    r.sEndTime = s + (reqEnd - reqStart).tdiv 60 * 60 ∧
    r.sDurationMinutes = (reqEnd - reqStart).tdiv 60 := by
  rw [getRecommendations, validateAndFixDurations] at hr
  rcases List.mem_map.mp hr with ⟨pre, _hpre, rfl⟩
  exact fixDuration_eq _ _ s hs

/-- C1 witness: for a one-hour request [0, 3600) the single returned
fallback candidate keeps a 60 minute duration. -/
theorem claim_C1_witness :
    ({ type := "alternative_time", score := 3/4, roomName := "Room_1",
       sRoomId := "LT1", sRoomName := none, sStartTime := some 0,
       sEndTime := 3600, sDurationMinutes := 60, finalScore := 3/4,
       mlScore := 1/2, llmScore := 1/2 } : Candidate).sEndTime =
        0 + ((3600 : Int) - 0).tdiv 60 * 60 ∧
    ({ type := "alternative_time", score := 3/4, roomName := "Room_1",
       sRoomId := "LT1", sRoomName := none, sStartTime := some 0,
       sEndTime := 3600, sDurationMinutes := 60, finalScore := 3/4,
       mlScore := 1/2, llmScore := 1/2 } : Candidate).sDurationMinutes =
        ((3600 : Int) - 0).tdiv 60 :=
  claim_C1 false false false false (fun _ => none) (fun _ => none)
    [] [] [] [] "LT1" 0 3600
    (Candidate.mk "alternative_time" (3/4) "Room_1" "LT1" none (some 0) 3600
      60 (3/4) (1/2) (1/2))
    (by norm_num [getRecommendations, getEnhancedRecommendationsSync,
      baseGetRecommendations, createFallbackRecommendations,
      getBaseRecommendations, calculateFinalScores, enrichCandidate,
      sortByPriority, priorityLE, priorityMap, configureScoring,
      validateAndFixDurations, fixDuration, List.insertionSort,
      List.orderedInsert, List.enum, List.enumFrom, List.lookup]; decide)
    0 rfl

/-- C1 counterexample: a 90 second request [0, 90) yields a candidate
whose suggestion runs [0, 60): the end minus start is 60 seconds, not the
requested 90, because the duration is truncated to whole minutes. -/
theorem claim_C1_counterexample :
    ((getRecommendations false false false false (fun _ => none)
      (fun _ => none) [] [] [] [] "LT1" 0 90).map fun r =>
        (r.sStartTime, r.sEndTime)) = [(some 0, 60)] ∧
    ((60 : Int) - 0 ≠ 90 - 0) := by
  exact ⟨by decide, by decide⟩

/-- C4: the list returned by the entry point is sorted by the priority
order (type priority ascending, final_score descending on equal
priority), in particular the priority numbers are non-decreasing, and it
has at most 8 elements. -/
theorem claim_C4
    (mlAvailable llmAvailable embeddingsPresent processorPresent : Bool)
    (calcMlScore calcLlmScore : Candidate → Option ℚ)
    (altTime altRoom proactive smart : List Candidate)
    (reqRoomId : String) (reqStart reqEnd : Int) :
    (getRecommendations mlAvailable llmAvailable embeddingsPresent
      processorPresent calcMlScore calcLlmScore altTime altRoom proactive
      smart reqRoomId reqStart reqEnd).Pairwise priorityLE ∧
    (getRecommendations mlAvailable llmAvailable embeddingsPresent
      processorPresent calcMlScore calcLlmScore altTime altRoom proactive
      smart reqRoomId reqStart reqEnd).Pairwise
      (fun a b => priorityMap a.type ≤ priorityMap b.type) ∧
    (getRecommendations mlAvailable llmAvailable embeddingsPresent
      processorPresent calcMlScore calcLlmScore altTime altRoom proactive
      smart reqRoomId reqStart reqEnd).length ≤ 8 := by
  have hP : ∀ (L : List Candidate) (d : Int),
      (validateAndFixDurations ((sortByPriority L).take 8) d).Pairwise
        priorityLE := by
    intro L d
    have h1 : (sortByPriority L).Pairwise priorityLE :=
      List.sorted_insertionSort priorityLE L
    have h2 : ((sortByPriority L).take 8).Pairwise priorityLE :=
      List.Pairwise.sublist (List.take_sublist 8 _) h1
    rw [validateAndFixDurations, List.pairwise_map]
    refine h2.imp ?_
    intro a b hab
    unfold priorityLE at hab ⊢
    rw [(fixDuration_proj d a).1, (fixDuration_proj d b).1,
      (fixDuration_proj d a).2.2.2.2.1, (fixDuration_proj d b).2.2.2.2.1]
    exact hab
  have hmain : (getRecommendations mlAvailable llmAvailable embeddingsPresent
      processorPresent calcMlScore calcLlmScore altTime altRoom proactive
      smart reqRoomId reqStart reqEnd).Pairwise priorityLE := by
    simp only [getRecommendations, getEnhancedRecommendationsSync]
    exact hP _ _
  refine ⟨hmain, ?_, ?_⟩
  · refine hmain.imp ?_
    intro a b hab
    rcases hab with h | ⟨h, _⟩
    · exact le_of_lt h
    · exact le_of_eq h
  · simp only [getRecommendations, getEnhancedRecommendationsSync,
      validateAndFixDurations, List.length_map]
    exact List.length_take_le 8 _

/-- C3: the entry point never returns the empty list, and when every
strategy contributes nothing it returns exactly one synthetic fallback
candidate of type alternative_time with score 0.75 reusing the requested
room id and start time. -/
theorem claim_C3
    (mlAvailable llmAvailable embeddingsPresent processorPresent : Bool)
    (calcMlScore calcLlmScore : Candidate → Option ℚ)
    (altTime altRoom proactive smart : List Candidate)
    (reqRoomId : String) (reqStart reqEnd : Int) :
    getRecommendations mlAvailable llmAvailable embeddingsPresent
      processorPresent calcMlScore calcLlmScore altTime altRoom proactive
      smart reqRoomId reqStart reqEnd ≠ [] ∧
    (altTime = [] → altRoom = [] → proactive = [] → smart = [] →
      ((getRecommendations mlAvailable llmAvailable embeddingsPresent
        processorPresent calcMlScore calcLlmScore altTime altRoom proactive
        smart reqRoomId reqStart reqEnd).map fun r =>
          (r.type, r.score, r.sRoomId, r.sStartTime)) =
        [("alternative_time", (3 : ℚ)/4, reqRoomId, some reqStart)]) := by
  constructor
  · have hb : 0 < (getBaseRecommendations (baseGetRecommendations altTime
        altRoom proactive smart reqRoomId (some reqStart) reqEnd)).length := by
      rw [getBaseRecommendations, List.length_map, List.enum_length,
        baseGetRecommendations]
      split
      · simp [createFallbackRecommendations]
      · rename_i h
        refine List.length_pos.mpr ?_
        intro hnil
        exact h (by rw [hnil]; rfl)
    have hlen : (getRecommendations mlAvailable llmAvailable embeddingsPresent
        processorPresent calcMlScore calcLlmScore altTime altRoom proactive
        smart reqRoomId reqStart reqEnd).length =
        min 8 (getBaseRecommendations (baseGetRecommendations altTime altRoom
          proactive smart reqRoomId (some reqStart) reqEnd)).length := by
      simp only [getRecommendations, getEnhancedRecommendationsSync,
        validateAndFixDurations, sortByPriority, calculateFinalScores]
      rw [List.length_map, List.length_take,
        (List.perm_insertionSort priorityLE _).length_eq, List.length_map]
    intro hnil
    rw [hnil] at hlen
    simp only [List.length_nil] at hlen
    omega
  · rintro rfl rfl rfl rfl
    norm_num [getRecommendations, getEnhancedRecommendationsSync,
      baseGetRecommendations, createFallbackRecommendations,
      getBaseRecommendations, calculateFinalScores, enrichCandidate,
      sortByPriority, validateAndFixDurations, fixDuration,
      List.insertionSort, List.orderedInsert, List.enum, List.enumFrom]

/-- C3 witness: a request for room LT1 on [0, 3600) with all strategies
empty yields the single fallback candidate. -/
theorem claim_C3_witness :
    getRecommendations false false false false (fun _ => none) (fun _ => none)
      [] [] [] [] "LT1" 0 3600 ≠ [] ∧
    ((getRecommendations false false false false (fun _ => none)
      (fun _ => none) [] [] [] [] "LT1" 0 3600).map fun r =>
        (r.type, r.score, r.sRoomId, r.sStartTime)) =
      [("alternative_time", (3 : ℚ)/4, "LT1", some 0)] :=
  ⟨(claim_C3 false false false false (fun _ => none) (fun _ => none)
      [] [] [] [] "LT1" 0 3600).1,
   (claim_C3 false false false false (fun _ => none) (fun _ => none)
      [] [] [] [] "LT1" 0 3600).2 rfl rfl rfl rfl⟩

lemma lookup_getD_bound (m : List (String × ℚ)) (k : String) (d : ℚ)
    (hm : ∀ p ∈ m, 0 ≤ p.2 ∧ p.2 ≤ 1) (hd : 0 ≤ d ∧ d ≤ 1) :
    0 ≤ (m.lookup k).getD d ∧ (m.lookup k).getD d ≤ 1 := by
  induction m with
  | nil => simpa using hd
  | cons p rest ih =>
    rcases p with ⟨k0, v0⟩
    cases hbeq : (k == k0) with
    | true =>
      have := hm (k0, v0) (List.mem_cons_self _ _)
      simp only [List.lookup, hbeq, Option.getD_some]
      simpa using this
    | false =>
      simp only [List.lookup, hbeq]
      exact ih fun q hq => hm q (List.mem_cons_of_mem _ hq)

/-- C6: on every enriched candidate the final score is the weighted blend
of its base, ml and llm scores; it lies in [0, 1] whenever the inputs do;
and in standard mode (both components unavailable) it equals the base
score exactly. -/
theorem claim_C6 (mlAvailable llmAvailable : Bool) (recs : List Candidate)
    (mlScores llmScores : List (String × ℚ))
    (hrec : ∀ rec ∈ recs, 0 ≤ rec.score ∧ rec.score ≤ 1)
    (hml : ∀ p ∈ mlScores, 0 ≤ p.2 ∧ p.2 ≤ 1)
    (hllm : ∀ p ∈ llmScores, 0 ≤ p.2 ∧ p.2 ≤ 1) :
    ∀ r ∈ calculateFinalScores (configureScoring mlAvailable llmAvailable).2
      recs mlScores llmScores,
      r.finalScore =
        (configureScoring mlAvailable llmAvailable).2.existingSystem * r.score
        + (configureScoring mlAvailable llmAvailable).2.mlSimilarity * r.mlScore
        + (configureScoring mlAvailable llmAvailable).2.llmContext * r.llmScore
      ∧ 0 ≤ r.finalScore ∧ r.finalScore ≤ 1 ∧
      (mlAvailable = false → llmAvailable = false →
        r.finalScore = r.score) := by
  intro r hrmem
  rw [calculateFinalScores] at hrmem
  rcases List.mem_map.mp hrmem with ⟨rec, hrec0, rfl⟩
  have hb := hrec rec hrec0
  have hmlb := lookup_getD_bound mlScores rec.roomName (1/2) hml (by norm_num)
  have hllmb := lookup_getD_bound llmScores rec.roomName (1/2) hllm
    (by norm_num)
  refine ⟨rfl, ?_⟩
  cases mlAvailable <;> cases llmAvailable
  · refine ⟨?_, ?_, ?_⟩
    · show 0 ≤ 1 * rec.score +
        0 * ((mlScores.lookup rec.roomName).getD (1/2)) +
        0 * ((llmScores.lookup rec.roomName).getD (1/2))
      linarith [hb.1, hb.2, hmlb.1, hmlb.2, hllmb.1, hllmb.2]
    · show 1 * rec.score +
        0 * ((mlScores.lookup rec.roomName).getD (1/2)) +
        0 * ((llmScores.lookup rec.roomName).getD (1/2)) ≤ 1
      linarith [hb.1, hb.2, hmlb.1, hmlb.2, hllmb.1, hllmb.2]
    · intro _ _
      show 1 * rec.score +
        0 * ((mlScores.lookup rec.roomName).getD (1/2)) +
        0 * ((llmScores.lookup rec.roomName).getD (1/2)) = rec.score
      ring
  · refine ⟨?_, ?_, ?_⟩
    · show 0 ≤ 9/10 * rec.score +
        0 * ((mlScores.lookup rec.roomName).getD (1/2)) +
        1/10 * ((llmScores.lookup rec.roomName).getD (1/2))
      linarith [hb.1, hb.2, hmlb.1, hmlb.2, hllmb.1, hllmb.2]
    · show 9/10 * rec.score +
        0 * ((mlScores.lookup rec.roomName).getD (1/2)) +
        1/10 * ((llmScores.lookup rec.roomName).getD (1/2)) ≤ 1
      linarith [hb.1, hb.2, hmlb.1, hmlb.2, hllmb.1, hllmb.2]
    · intro _ h2
      exact absurd h2 (by simp)
  · refine ⟨?_, ?_, ?_⟩
    · show 0 ≤ 9/10 * rec.score +
        1/10 * ((mlScores.lookup rec.roomName).getD (1/2)) +
        0 * ((llmScores.lookup rec.roomName).getD (1/2))
      linarith [hb.1, hb.2, hmlb.1, hmlb.2, hllmb.1, hllmb.2]
    · show 9/10 * rec.score +
        1/10 * ((mlScores.lookup rec.roomName).getD (1/2)) +
        0 * ((llmScores.lookup rec.roomName).getD (1/2)) ≤ 1
      linarith [hb.1, hb.2, hmlb.1, hmlb.2, hllmb.1, hllmb.2]
    · intro h1 _
      exact absurd h1 (by simp)
  · refine ⟨?_, ?_, ?_⟩
    · show 0 ≤ 85/100 * rec.score +
        75/1000 * ((mlScores.lookup rec.roomName).getD (1/2)) +
        75/1000 * ((llmScores.lookup rec.roomName).getD (1/2))
      linarith [hb.1, hb.2, hmlb.1, hmlb.2, hllmb.1, hllmb.2]
    · show 85/100 * rec.score +
        75/1000 * ((mlScores.lookup rec.roomName).getD (1/2)) +
        75/1000 * ((llmScores.lookup rec.roomName).getD (1/2)) ≤ 1
      linarith [hb.1, hb.2, hmlb.1, hmlb.2, hllmb.1, hllmb.2]
    · intro h1 _
      exact absurd h1 (by simp)

/-- C6 witness: a single candidate with base score 0.75 in standard mode
gets final score 0.75, within bounds and equal to the base score. -/
theorem claim_C6_witness :
    (Candidate.mk "alternative_room" (3/4) "A" "" none none 0 0 (3/4) 1
      (1/2)).finalScore =
      (configureScoring false false).2.existingSystem *
        (Candidate.mk "alternative_room" (3/4) "A" "" none none 0 0 (3/4) 1
          (1/2)).score
      + (configureScoring false false).2.mlSimilarity *
        (Candidate.mk "alternative_room" (3/4) "A" "" none none 0 0 (3/4) 1
          (1/2)).mlScore
      + (configureScoring false false).2.llmContext *
        (Candidate.mk "alternative_room" (3/4) "A" "" none none 0 0 (3/4) 1
          (1/2)).llmScore
    ∧ 0 ≤ (Candidate.mk "alternative_room" (3/4) "A" "" none none 0 0 (3/4)
        1 (1/2)).finalScore
    ∧ (Candidate.mk "alternative_room" (3/4) "A" "" none none 0 0 (3/4) 1
        (1/2)).finalScore ≤ 1
    ∧ (false = false → false = false →
        (Candidate.mk "alternative_room" (3/4) "A" "" none none 0 0 (3/4) 1
          (1/2)).finalScore =
        (Candidate.mk "alternative_room" (3/4) "A" "" none none 0 0 (3/4) 1
          (1/2)).score) :=
  claim_C6 false false
    [Candidate.mk "alternative_room" (3/4) "A" "" none none 0 0 0 0 0]
    [("A", 1)] []
    (by norm_num) (by norm_num) (by simp) _
    (by norm_num [calculateFinalScores, enrichCandidate, configureScoring,
      List.lookup])

lemma foldl_dictInsert_values (g : Candidate → ℚ) (v : ℚ)
    (hg : ∀ rec : Candidate, g rec = v) (recs : List Candidate) :
    ∀ init : List (String × ℚ), (∀ p ∈ init, p.2 = v) →
      ∀ p ∈ recs.foldl (fun m rec =>
        if rec.roomName ≠ "" then dictInsert m rec.roomName (g rec) else m)
        init, p.2 = v := by
  induction recs with
  | nil =>
    intro init hinit p hp
    exact hinit p hp
  | cons rec rest ih =>
    intro init hinit
    rw [List.foldl_cons]
    apply ih
    intro p hp
    by_cases hname : rec.roomName ≠ ""
    · rw [if_pos hname, dictInsert] at hp
      split at hp
      · rcases List.mem_map.mp hp with ⟨q, hq, rfl⟩
        by_cases hqk : (q.1 == rec.roomName) = true
        · rw [if_pos hqk]
          exact hg rec
        · rw [if_neg hqk]
          exact hinit q hq
      · rcases List.mem_append.mp hp with h | h
        · exact hinit _ h
        · rw [List.mem_singleton] at h
          rw [h]
          exact hg rec
    · rw [if_neg hname] at hp
      exact hinit p hp

/-- C7 amended: when the LLM analysis actually runs (component flagged
available), a missing processor or a per-room scoring failure substitutes
the neutral 0.6 for that room, and the ML analysis substitutes 0.5
likewise; but when the LLM component is flagged unavailable the analysis
is skipped entirely and every candidate returned by the entry point gets
the fusion lookup default 0.5 as llm_score, not 0.6.  The substitution
never aborts the recommendation (all embedded functions are total). -/
theorem claim_C7 (processorPresent : Bool)
    (calcMlScore calcLlmScore : Candidate → Option ℚ)
    (recs : List Candidate)
    (hfailLlm : ∀ rec, calcLlmScore rec = none)
    (hfailMl : ∀ rec, calcMlScore rec = none)
    (mlAvailable embeddingsPresent : Bool)
    (altTime altRoom proactive smart : List Candidate)
    (reqRoomId : String) (reqStart reqEnd : Int) :
    (∀ p ∈ runLlmAnalysisSync processorPresent true calcLlmScore recs,
      p.2 = 6/10) ∧
    (∀ p ∈ runMlAnalysisSync embeddingsPresent true calcMlScore recs,
      p.2 = 1/2) ∧
    (∀ r ∈ getRecommendations mlAvailable false embeddingsPresent
      processorPresent calcMlScore calcLlmScore altTime altRoom proactive
      smart reqRoomId reqStart reqEnd, r.llmScore = 1/2) := by
  refine ⟨?_, ?_, ?_⟩
  · intro p hp
    rw [runLlmAnalysisSync] at hp
    cases processorPresent with
    | false =>
      simp only [Bool.not_false, Bool.not_true, Bool.true_or, if_true] at hp
      exact foldl_dictInsert_values (fun _ => (6 : ℚ)/10) (6/10)
        (fun _ => rfl) recs [] (by simp) p hp
    | true =>
      simp only [Bool.not_true, Bool.or_self, Bool.false_eq_true,
        if_false] at hp
      exact foldl_dictInsert_values
        (fun rec => (calcLlmScore rec).getD (6/10)) (6/10)
        (fun rec => by simp [hfailLlm rec]) recs [] (by simp) p hp
  · intro p hp
    rw [runMlAnalysisSync] at hp
    cases embeddingsPresent with
    | false =>
      simp only [Bool.not_false, Bool.not_true, Bool.true_or, if_true] at hp
      exact foldl_dictInsert_values (fun _ => (1 : ℚ)/2) (1/2)
        (fun _ => rfl) recs [] (by simp) p hp
    | true =>
      simp only [Bool.not_true, Bool.or_self, Bool.false_eq_true,
        if_false] at hp
      exact foldl_dictInsert_values
        (fun rec => (calcMlScore rec).getD (1/2)) (1/2)
        (fun rec => by simp [hfailMl rec]) recs [] (by simp) p hp
  · intro r hr
    simp only [getRecommendations, getEnhancedRecommendationsSync,
      validateAndFixDurations, sortByPriority, calculateFinalScores] at hr
    rcases List.mem_map.mp hr with ⟨pre, hpre, rfl⟩
    rw [(fixDuration_proj _ pre).2.2.2.2.2.2]
    have hpre2 := List.mem_of_mem_take hpre
    have hpre3 := (List.perm_insertionSort priorityLE _).mem_iff.mp hpre2
    rcases List.mem_map.mp hpre3 with ⟨rec, _hrec, rfl⟩
    simp [enrichCandidate, List.lookup]

/-- C7 witness: with the LLM component available but every per-room
scoring call failing, the score attached to room A is the neutral 0.6. -/
theorem claim_C7_witness :
    ("A", (6 : ℚ)/10) ∈ runLlmAnalysisSync true true (fun _ => none)
      [Candidate.mk "alternative_room" 1 "A" "" none none 0 0 0 0 0] ∧
    (("A", (6 : ℚ)/10) : String × ℚ).2 = 6/10 :=
  ⟨by norm_num [runLlmAnalysisSync, dictInsert, List.foldl]; decide,
   (claim_C7 true (fun _ => none) (fun _ => none)
      [Candidate.mk "alternative_room" 1 "A" "" none none 0 0 0 0 0]
      (fun _ => rfl) (fun _ => rfl) false false [] [] [] [] "LT1" 0 3600).1
      ("A", 6/10)
      (by norm_num [runLlmAnalysisSync, dictInsert, List.foldl]; decide)⟩

/-- C7 counterexample: with the LLM component unavailable, the candidate
returned by the entry point carries llm_score 0.5 (the fusion lookup
default), not the neutral 0.6 the claim asserts. -/
theorem claim_C7_counterexample :
    ((getRecommendations false false false false (fun _ => none)
      (fun _ => none) []
      [{ type := "alternative_room", score := 3/4, sRoomName := some "A",
         sRoomId := "A", sStartTime := some 0, sEndTime := 3600 }] [] []
      "LT1" 0 3600).map fun r => r.llmScore) = [1/2] ∧
    ((1 : ℚ)/2 ≠ 6/10) := by
  constructor
  · norm_num [getRecommendations, getEnhancedRecommendationsSync,
      baseGetRecommendations, createFallbackRecommendations,
      getBaseRecommendations, calculateFinalScores, enrichCandidate,
      sortByPriority, priorityLE, priorityMap, configureScoring,
      validateAndFixDurations, fixDuration, List.insertionSort,
      List.orderedInsert, List.enum, List.enumFrom, List.lookup]
  · norm_num

end HBA
